import Mathlib

/-!
Shallow embedding of the AstroTrader core pipeline (src/bot.py).

Modelling conventions:
* pandas float NaN ("undefined") is modelled as `none : Option ℚ`; a defined
  float value is `some q` with exact rational arithmetic.
* A pandas Series of floats is a `List (Option ℚ)`; series that can never hold
  NaN (the close prices, the gain/loss series after `where` replacement) are
  plain `List ℚ`.
* Rational division is total (`q / 0 = 0` in Lean), so every place where the
  source's float arithmetic can hit `inf` or `0/0 = NaN` is branched explicitly
  to reproduce the IEEE outcome (see `rsiAt`).  The model tracks the source
  exactly on series with positive closes, the data-model invariant.
* Chained mask assignment (`signals['X'][mask] = v`) is modelled with its
  intended pandas semantics: the masked positions of the column are updated.
-/

namespace AstroTrader

/-- One OHLCV observation as downloaded by `fetch_data` (bot.py line 46). -/
structure Row where
  timestamp : Int
  openPrice : ℚ
  high : ℚ
  low : ℚ
  close : ℚ
  volume : ℚ
deriving DecidableEq

/-- Timestamps strictly increasing (the spec's PriceSeries order invariant). -/
def strictlyIncreasing : List Int → Bool
  | [] => true
  | [_] => true
  | a :: b :: rest => (a < b) && strictlyIncreasing (b :: rest)

/-- The spec's data-integrity predicate on a downloaded table: empty input,
non-monotonic timestamps, or a non-positive close value. -/
def dataIntegrityViolation (rows : List Row) : Bool :=
  rows.isEmpty
    || !(strictlyIncreasing (rows.map Row.timestamp))
    || rows.any (fun r => decide (r.close ≤ 0))

/-- Embedding of `fetch_data` (bot.py lines 39-53).  The download result is
passed in (`Except.error` models a provider exception, which the `except`
block re-raises unchanged).  On success the code stores the table as-is; an
empty table only triggers a warning log, modelled by the returned `Bool`.
No validation of any kind is performed. -/
def fetch_data (download : Except String (List Row)) :
    Except String (List Row × Bool) :=
  match download with
  | Except.error e => Except.error e
  | Except.ok rows => Except.ok (rows, rows.isEmpty)

/-- Embedding of pandas `Series.rolling(window=w).mean()` on a NaN-free input
series (bot.py lines 61-62 and 81-82): entry `i` is NaN while the window is
incomplete (`i + 1 < w`) and otherwise the mean of `xs[i+1-w .. i]`. -/
def rollingMean (w : Nat) (xs : List ℚ) : List (Option ℚ) :=
  (List.range xs.length).map (fun i =>
    if i + 1 < w then none
    else some (((xs.drop (i + 1 - w)).take w).sum / (w : ℚ)))

/-- Embedding of `self.data['Close'].rolling(window=w).mean()`
(bot.py lines 61-62). -/
def simpleMovingAverage (w : Nat) (close : List ℚ) : List (Option ℚ) :=
  rollingMean w close

/-- Embedding of `delta.where(delta > 0, 0)` (bot.py lines 80-81):
`delta = close.diff()` has NaN at index 0, and `NaN > 0` is `False`, so the
`where` replaces it with 0; later entries are `max (close[i] - close[i-1]) 0`. -/
def gainList : List ℚ → List ℚ
  | [] => []
  | c :: rest => 0 :: List.zipWith (fun prev cur => max (cur - prev) 0) (c :: rest) rest

/-- Embedding of `-delta.where(delta < 0, 0)` pointwise (bot.py line 82): the
unary minus distributes over the rolling mean, giving `max (prev - cur) 0`
per entry, with the index-0 NaN again replaced by 0. -/
def lossList : List ℚ → List ℚ
  | [] => []
  | c :: rest => 0 :: List.zipWith (fun prev cur => max (prev - cur) 0) (c :: rest) rest

/-- Float semantics of `100 - 100 / (1 + gain / loss)` (bot.py lines 83-84) at
one index: with `loss = 0` and `gain ≠ 0` the ratio is `inf` and the RSI
evaluates to 100; with `loss = 0 = gain` it is `0/0 = NaN` (undefined); with
`loss ≠ 0` it is the plain formula. -/
def rsiAt (gain loss : ℚ) : Option ℚ :=
  if loss = 0 then
    (if gain = 0 then none else some 100)
  else some (100 - 100 / (1 + gain / loss))

/-- Embedding of `calculate_rsi` (bot.py lines 72-85): rolling means of the
gain and loss series, combined by `rsiAt`; an incomplete window on either
side is NaN. -/
def calculate_rsi (periods : Nat) (close : List ℚ) : List (Option ℚ) :=
  List.zipWith (fun g? l? =>
      match g?, l? with
      | some g, some l => rsiAt g l
      | _, _ => none)
    (rollingMean periods (gainList close))
    (rollingMean periods (lossList close))

/-- Embedding of `calculate_indicators` (bot.py lines 55-67): the three
indicator columns attached to the data, with the source's parameters. -/
def calculate_indicators (close : List ℚ) : List (String × List (Option ℚ)) :=
  [("SMA_50", simpleMovingAverage 50 close),
   ("SMA_200", simpleMovingAverage 200 close),
   ("RSI", calculate_rsi 14 close)]

/-- Embedding of the normalisation lambda (bot.py line 114):
`1 if x > 0 else (-1 if x < 0 else 0)`. -/
def normalizeSignal (x : Int) : Int :=
  if x > 0 then 1 else if x < 0 then -1 else 0

/-- SMA crossover signal at one index (bot.py lines 101-103): the column
starts at 0; the mask `SMA_50 > SMA_200` sets 1 and `SMA_50 < SMA_200`
sets -1.  A float comparison against NaN is `False`, so an undefined SMA on
either side leaves the 0. -/
def smaSignalAt (fast? slow? : Option ℚ) : Int :=
  match fast?, slow? with
  | some f, some s => if f > s then 1 else if f < s then -1 else 0
  | _, _ => 0

/-- Embedding of the SMA crossover column (bot.py lines 101-103), index-aligned
over the two SMA series. -/
def smaCrossSignal (fast slow : List (Option ℚ)) : List Int :=
  List.zipWith smaSignalAt fast slow

/-- RSI threshold signal at one index (bot.py lines 106-108): -1 where
`RSI > 70`, 1 where `RSI < 30`, otherwise (including NaN) the initial 0. -/
def rsiSignalAt (rsi? : Option ℚ) : Int :=
  match rsi? with
  | some r => if r > 70 then -1 else if r < 30 then 1 else 0
  | none => 0

/-- Embedding of the RSI signal column (bot.py lines 106-108). -/
def rsiSignal (rsi : List (Option ℚ)) : List Int :=
  rsi.map rsiSignalAt

/-- Embedding of the signal combination (bot.py lines 111-114): per-index sum
of the two sub-signal columns, then `normalizeSignal`. -/
def combineSignals (s1 s2 : List Int) : List Int :=
  List.zipWith (fun a b => normalizeSignal (a + b)) s1 s2

/-- Column access `data['name']` on a DataFrame modelled as an association
list: a missing column raises `KeyError` (modelled as `Except.error`). -/
def getColumn (data : List (String × List (Option ℚ))) (name : String) :
    Except String (List (Option ℚ)) :=
  match List.lookup name data with
  | some col => Except.ok col
  | none => Except.error ("KeyError: " ++ name)

/-- Embedding of `generate_signals` (bot.py lines 90-117) over the bot's
current data columns.  Python evaluates `self.data['SMA_50']` first
(line 102), then `self.data['SMA_200']`, then `self.data['RSI']` (line 107);
each missing column raises `KeyError` at that point.  The result is the
(SMA_Signal, RSI_Signal, Signal) columns. -/
def generate_signals (data : List (String × List (Option ℚ))) :
    Except String (List Int × List Int × List Int) := do
  let sma50 ← getColumn data ("SMA_50")
  let sma200 ← getColumn data ("SMA_200")
  let rsi ← getColumn data ("RSI")
  let smaSig := smaCrossSignal sma50 sma200
  let rsiSig := rsiSignal rsi
  Except.ok (smaSig, rsiSig, combineSignals smaSig rsiSig)

/-- Columns of the table returned by `yf.download` in the script's main flow
(bot.py line 208): the OHLCV columns only — `calculate_indicators` is never
called there, so no indicator column is present. -/
def fetchedData (o h l c ac v : List ℚ) : List (String × List (Option ℚ)) :=
  [("Open", o.map some), ("High", h.map some), ("Low", l.map some),
   ("Close", c.map some), ("Adj Close", ac.map some), ("Volume", v.map some)]

/-- Embedding of `self.data['Close'].pct_change()` (bot.py line 130): NaN at
index 0, `(close[i] - close[i-1]) / close[i-1]` afterwards. -/
def pct_change : List ℚ → List (Option ℚ)
  | [] => []
  | c :: rest => none :: List.zipWith (fun prev cur => some ((cur - prev) / prev)) (c :: rest) rest

/-- Embedding of `Series.shift(1)` on the integer signal column (bot.py
line 131): NaN enters at index 0, the last entry falls off. -/
def shift1 (xs : List Int) : List (Option Int) :=
  ((none :: xs.map some).take xs.length)

/-- Embedding of `self.signals['Signal'].shift(1) * self.data['Market_Return']`
(bot.py line 131): float multiplication, NaN-absorbing on either side. -/
def strategy_return (close : List ℚ) (signal : List Int) : List (Option ℚ) :=
  List.zipWith (fun s? m? =>
      match s?, m? with
      | some s, some m => some ((s : ℚ) * m)
      | _, _ => none)
    (shift1 signal) (pct_change close)

/-- Embedding of pandas `Series.cumprod()` with its default `skipna=True`: a
NaN entry stays NaN in the output and the running product continues past it
unchanged. -/
def cumprodAux (acc : ℚ) : List (Option ℚ) → List (Option ℚ)
  | [] => []
  | none :: rest => none :: cumprodAux acc rest
  | some v :: rest => some (acc * v) :: cumprodAux (acc * v) rest

/-- `Series.cumprod()` starting from an empty running product. -/
def cumprod (xs : List (Option ℚ)) : List (Option ℚ) :=
  cumprodAux 1 xs

/-- Embedding of `(1 + r).cumprod() - 1` (bot.py lines 132-133); `1 + NaN` and
`NaN - 1` are NaN. -/
def cumulativeReturns (r : List (Option ℚ)) : List (Option ℚ) :=
  (cumprod (r.map (Option.map (fun x => 1 + x)))).map (Option.map (fun p => p - 1))

/-- Embedding of `backtest_strategy` (bot.py lines 122-137): the pair
(Cumulative_Strategy_Return, Cumulative_Market_Return). -/
def backtest_strategy (close : List ℚ) (signal : List Int) :
    List (Option ℚ) × List (Option ℚ) :=
  (cumulativeReturns (strategy_return close signal),
   cumulativeReturns (pct_change close))

/-! Helper lemmas shared by the claim theorems. -/

/-- Index access into a `zipWith`, in `match` form. -/
theorem get?_zipWith_eq {α β γ : Type} (f : α → β → γ) (as : List α) (bs : List β) (i : Nat) :
    (List.zipWith f as bs).get? i =
      match as.get? i, bs.get? i with
      | some a, some b => some (f a b)
      | _, _ => none := by
  simp only [List.get?_eq_getElem?]
  exact List.getElem?_zipWith

/-- Index access into `rollingMean`. -/
theorem rollingMean_get? (w : Nat) (xs : List ℚ) (i : Nat) (h : i < xs.length) :
    (rollingMean w xs).get? i =
      some (if i + 1 < w then none
            else some (((xs.drop (i + 1 - w)).take w).sum / (w : ℚ))) := by
  simp [rollingMean, List.get?_eq_getElem?, List.getElem?_range h]

/-- A `rollingMean` entry is present exactly at indices below the input length. -/
theorem rollingMean_length (w : Nat) (xs : List ℚ) :
    (rollingMean w xs).length = xs.length := by
  simp [rollingMean]

theorem gainList_length (close : List ℚ) : (gainList close).length = close.length := by
  cases close with
  | nil => rfl
  | cons c rest => simp [gainList, Nat.min_def]

theorem lossList_length (close : List ℚ) : (lossList close).length = close.length := by
  cases close with
  | nil => rfl
  | cons c rest => simp [lossList, Nat.min_def]

theorem mem_zipWith_nonneg {f : ℚ → ℚ → ℚ} (hf : ∀ a b, 0 ≤ f a b) :
    ∀ (as bs : List ℚ) (x : ℚ), x ∈ List.zipWith f as bs → 0 ≤ x := by
  intro as
  induction as with
  | nil => intro bs x hx; simp at hx
  | cons a as ih =>
    intro bs x hx
    cases bs with
    | nil => simp at hx
    | cons b bs =>
      simp only [List.zipWith_cons_cons, List.mem_cons] at hx
      rcases hx with h | h
      · exact h ▸ hf a b
      · exact ih bs x h

theorem gainList_nonneg (close : List ℚ) : ∀ x ∈ gainList close, 0 ≤ x := by
  cases close with
  | nil => intro x hx; simp [gainList] at hx
  | cons c rest =>
    intro x hx
    simp only [gainList, List.mem_cons] at hx
    rcases hx with h | h
    · simp [h]
    · exact mem_zipWith_nonneg (fun a b => le_max_right _ _) _ _ x h

theorem lossList_nonneg (close : List ℚ) : ∀ x ∈ lossList close, 0 ≤ x := by
  cases close with
  | nil => intro x hx; simp [lossList] at hx
  | cons c rest =>
    intro x hx
    simp only [lossList, List.mem_cons] at hx
    rcases hx with h | h
    · simp [h]
    · exact mem_zipWith_nonneg (fun a b => le_max_right _ _) _ _ x h

/-- A defined `rollingMean` value over a nonnegative series is nonnegative. -/
theorem rollingMean_nonneg {w : Nat} {xs : List ℚ} (hx : ∀ x ∈ xs, 0 ≤ x)
    {i : Nat} {q : ℚ} (h : (rollingMean w xs).get? i = some (some q)) : 0 ≤ q := by
  have hi : i < xs.length := by
    by_contra hge
    have : (rollingMean w xs).get? i = none := by
      rw [List.get?_eq_getElem?, List.getElem?_eq_none]
      rw [rollingMean_length]
      omega
    rw [this] at h
    exact Option.noConfusion h
  rw [rollingMean_get? w xs i hi] at h
  by_cases hw : i + 1 < w
  · rw [if_pos hw] at h
    exact Option.noConfusion (Option.some.inj h)
  · rw [if_neg hw] at h
    have hq : ((xs.drop (i + 1 - w)).take w).sum / (w : ℚ) = q :=
      Option.some.inj (Option.some.inj h)
    have hsum : 0 ≤ ((xs.drop (i + 1 - w)).take w).sum := by
      apply List.sum_nonneg
      intro x hxmem
      exact hx x (List.mem_of_mem_drop (List.mem_of_mem_take hxmem))
    rw [← hq]
    exact div_nonneg hsum (by positivity)

theorem normalizeSignal_eq_sign (x : Int) : normalizeSignal x = Int.sign x := by
  unfold normalizeSignal
  rcases lt_trichotomy x 0 with h | h | h
  · rw [if_neg (by omega), if_pos h, Int.sign_eq_neg_one_of_neg h]
  · subst h; rfl
  · rw [if_pos h, Int.sign_eq_one_of_pos h]

theorem smaSignalAt_swap (x y : Option ℚ) : smaSignalAt x y = -smaSignalAt y x := by
  rcases x with _ | f
  · rcases y with _ | s
    · rfl
    · rfl
  · rcases y with _ | s
    · rfl
    · show (if f > s then 1 else if f < s then (-1 : Int) else 0) =
        -(if s > f then 1 else if s < f then (-1 : Int) else 0)
      rcases lt_trichotomy f s with h | h | h
      · rw [if_neg (not_lt.mpr h.le), if_pos h, if_pos h]
      · subst h
        rw [if_neg (lt_irrefl f), if_neg (lt_irrefl f)]
        decide
      · rw [if_pos h, if_neg (not_lt.mpr h.le), if_pos h]
        decide

/-! Claim theorems. -/

/-- C10: the cumulative market return curve produced by `backtest_strategy` does
not depend on the signal series — any two signal series over the same close
series yield identical `Cumulative_Market_Return` sequences. -/
theorem C10_market_curve_signal_independent (close : List ℚ) (s1 s2 : List Int) :
    (backtest_strategy close s1).2 = (backtest_strategy close s2).2 := rfl

/-- C3 counterexample: a one-row table with a non-positive close violates the
spec's integrity conditions, yet `fetch_data` produces the series unchanged and
raises no `DataIntegrityError`.  The claim "for every such malformed input the
error is raised rather than a series being produced" is false on the code. -/
theorem C3_counterexample :
    dataIntegrityViolation [⟨0, 10, 10, 10, -5, 0⟩] = true ∧
    fetch_data (Except.ok [⟨0, 10, 10, 10, -5, 0⟩]) =
      Except.ok ([⟨0, 10, 10, 10, -5, 0⟩], false) := by
  constructor
  · decide
  · rfl

/-- C3 amended: `fetch_data` performs no integrity validation at all — every
successfully downloaded table, including empty, non-monotonic or
non-positive-close ones, is stored as-is (an empty table merely triggers a
warning flag); no `DataIntegrityError` is raised. -/
theorem C3_no_validation (rows : List Row) (h : dataIntegrityViolation rows = true) :
    fetch_data (Except.ok rows) = Except.ok (rows, rows.isEmpty) := rfl

/-- Witness for C3: the amended theorem applied to the malformed one-row table. -/
theorem C3_no_validation_witness :
    fetch_data (Except.ok [⟨0, 10, 10, 10, -5, 0⟩]) =
      Except.ok ([⟨0, 10, 10, 10, -5, 0⟩], ([] ++ [(⟨0, 10, 10, 10, -5, 0⟩ : Row)]).isEmpty) :=
  C3_no_validation [⟨0, 10, 10, 10, -5, 0⟩] (by decide)

/-- C9: `generate_signals` requires the indicator columns; on any data lacking
the `SMA_50` column — as in the script's main flow, which calls `fetch_data`
and then `generate_signals` without `calculate_indicators` — it raises the
missing-column `KeyError` instead of returning a signal series. -/
theorem C9_missing_column_keyerror (data : List (String × List (Option ℚ)))
    (h : List.lookup ("SMA_50") data = none) :
    generate_signals data = Except.error ("KeyError: SMA_50") := by
  simp only [generate_signals, getColumn, h]
  rfl

/-- Witness for C9: the main-flow data (OHLCV columns only, no indicators). -/
theorem C9_missing_column_keyerror_witness :
    generate_signals (fetchedData [100] [101] [99] [100] [100] [1000]) =
      Except.error ("KeyError: SMA_50") :=
  C9_missing_column_keyerror (fetchedData [100] [101] [99] [100] [100] [1000]) (by decide)

/-- C7: the SmaCrossover signal is antisymmetric in its two SMA inputs —
swapping fast and slow negates the signal series pointwise, so every nonzero
signal flips sign and every zero stays zero. -/
theorem C7_sma_signal_antisymmetric (a b : List (Option ℚ)) :
    smaCrossSignal a b = (smaCrossSignal b a).map (fun x => -x) := by
  induction a generalizing b with
  | nil => cases b <;> rfl
  | cons x xs ih =>
    cases b with
    | nil => rfl
    | cons y ys =>
      simp only [smaCrossSignal, List.zipWith_cons_cons, List.map_cons] at *
      rw [ih ys, smaSignalAt_swap]

/-- C5: for sub-signal series with per-index values -1, 0 or +1, the combined
signal at each index is the sign of the sum of the sub-signals, and two
sub-signals that agree yield that same value (magnitude 1, never 2). -/
theorem C5_combined_is_sign (s1 s2 : List Int)
    (h1 : ∀ x ∈ s1, x = -1 ∨ x = 0 ∨ x = 1) (h2 : ∀ x ∈ s2, x = -1 ∨ x = 0 ∨ x = 1)
    (i : Nat) (a b : Int) (ha : s1.get? i = some a) (hb : s2.get? i = some b) :
    (combineSignals s1 s2).get? i = some (Int.sign (a + b)) ∧
    (a = b → (combineSignals s1 s2).get? i = some a) := by
  have hc : (combineSignals s1 s2).get? i = some (normalizeSignal (a + b)) := by
    rw [combineSignals, get?_zipWith_eq, ha, hb]
  constructor
  · rw [hc, normalizeSignal_eq_sign]
  · intro hab
    subst hab
    rcases h1 a (List.get?_mem ha) with h | h | h <;> subst h <;> rw [hc] <;> rfl

/-- Witness for C5: two length-one series, both long. -/
theorem C5_combined_is_sign_witness :
    (combineSignals [1] [1]).get? 0 = some (Int.sign (1 + 1)) ∧
    ((1 : Int) = 1 → (combineSignals [1] [1]).get? 0 = some 1) :=
  C5_combined_is_sign [1] [1] (by decide) (by decide) 0 1 1 rfl rfl

/-- C6: the SmaCrossover signal at index `i` is +1 when the fast SMA is above
the slow SMA, -1 when below, and 0 when the two are equal or either is
undefined at `i`. -/
theorem C6_sma_crossover_cases (fast slow : List (Option ℚ)) (i : Nat)
    (f? s? : Option ℚ) (hf : fast.get? i = some f?) (hs : slow.get? i = some s?) :
    (∀ a b : ℚ, f? = some a → s? = some b →
      ((a > b → (smaCrossSignal fast slow).get? i = some 1) ∧
       (a < b → (smaCrossSignal fast slow).get? i = some (-1)) ∧
       (a = b → (smaCrossSignal fast slow).get? i = some 0))) ∧
    ((f? = none ∨ s? = none) → (smaCrossSignal fast slow).get? i = some 0) := by
  have hc : (smaCrossSignal fast slow).get? i = some (smaSignalAt f? s?) := by
    rw [smaCrossSignal, get?_zipWith_eq, hf, hs]
  constructor
  · intro a b hfa hsb
    subst hfa
    subst hsb
    refine ⟨fun hgt => ?_, fun hlt => ?_, fun heq => ?_⟩
    · rw [hc]; simp [smaSignalAt, hgt]
    · rw [hc]; simp [smaSignalAt, not_lt.mpr (le_of_lt hlt), hlt]
    · subst heq; rw [hc]; simp [smaSignalAt]
  · intro hnone
    rcases hnone with h | h <;> subst h <;> rw [hc] <;>
      first
      | rfl
      | (rcases f? with _ | a <;> rfl)

/-- Witness for C6: one index with the fast SMA above the slow SMA, plus one
undefined fast SMA. -/
theorem C6_sma_crossover_cases_witness :
    (smaCrossSignal [some 2] [some 1]).get? 0 = some 1 ∧
    (smaCrossSignal [(none : Option ℚ)] [some 1]).get? 0 = some 0 :=
  ⟨((C6_sma_crossover_cases [some 2] [some 1] 0 (some 2) (some 1) rfl rfl).1
      2 1 rfl rfl).1 (by norm_num),
   (C6_sma_crossover_cases [(none : Option ℚ)] [some 1] 0 none (some 1) rfl rfl).2
      (Or.inl rfl)⟩

theorem sum_take_eq (l : List ℚ) : ∀ n : Nat, n ≤ l.length →
    (l.take n).sum = ∑ k ∈ Finset.range n, l.getD k 0 := by
  induction l with
  | nil =>
    intro n hn
    have : n = 0 := by simpa using hn
    subst this
    simp
  | cons x xs ih =>
    intro n hn
    cases n with
    | zero => simp
    | succ m =>
      rw [List.take_succ_cons, List.sum_cons, ih m (by simpa using hn),
        Finset.sum_range_succ']
      simp only [List.getD_cons_succ, List.getD_cons_zero]
      ring

theorem getD_drop_eq (l : List ℚ) (a k : Nat) : (l.drop a).getD k 0 = l.getD (a + k) 0 := by
  simp [List.getD_eq_getElem?_getD, List.getElem?_drop]

/-- The trailing-window sum of `rollingMean` as an index-based sum. -/
theorem window_sum (xs : List ℚ) (a w : Nat) (h : a + w ≤ xs.length) :
    ((xs.drop a).take w).sum = ∑ k ∈ Finset.range w, xs.getD (a + k) 0 := by
  rw [sum_take_eq (xs.drop a) w (by simp [List.length_drop]; omega)]
  exact Finset.sum_congr rfl (fun k _ => getD_drop_eq xs a k)

/-- C4: for window size `w ≥ 1` and a close series of length `n ≥ w`, the
simple moving average is undefined at exactly the first `w-1` indices and at
every index `i ≥ w-1` equals the arithmetic mean of `close[i-w+1 .. i]`. -/
theorem C4_sma_window (w : Nat) (close : List ℚ) (hw : 1 ≤ w) (hn : w ≤ close.length)
    (i : Nat) (hi : i < close.length) :
    (i + 1 < w → (simpleMovingAverage w close).get? i = some none) ∧
    (w ≤ i + 1 → (simpleMovingAverage w close).get? i =
      some (some ((∑ k ∈ Finset.range w, close.getD (i + 1 - w + k) 0) / (w : ℚ)))) := by
  constructor
  · intro hlt
    rw [simpleMovingAverage, rollingMean_get? w close i hi, if_pos hlt]
  · intro hge
    rw [simpleMovingAverage, rollingMean_get? w close i hi, if_neg (by omega),
      window_sum close (i + 1 - w) w (by omega)]

/-- Witness for C4: window 2 over a 3-element series — undefined at index 0,
the mean of the last two entries at index 2. -/
theorem C4_sma_window_witness :
    (simpleMovingAverage 2 [1, 2, 3]).get? 0 = some none ∧
    (simpleMovingAverage 2 [1, 2, 3]).get? 2 =
      some (some ((∑ k ∈ Finset.range 2, ([1, 2, 3] : List ℚ).getD (2 + 1 - 2 + k) 0) / (2 : ℚ))) :=
  ⟨(C4_sma_window 2 [1, 2, 3] (by decide) (by decide) 0 (by decide)).1 (by decide),
   (C4_sma_window 2 [1, 2, 3] (by decide) (by decide) 2 (by decide)).2 (by decide)⟩

theorem pct_change_get? (close : List ℚ) (i : Nat) (h1 : 1 ≤ i) :
    (pct_change close).get? i =
      match close.get? (i - 1), close.get? i with
      | some p, some c => some (some ((c - p) / p))
      | _, _ => none := by
  cases close with
  | nil => simp [pct_change]
  | cons c rest =>
    obtain ⟨j, rfl⟩ : ∃ j, i = j + 1 := ⟨i - 1, by omega⟩
    show (none :: List.zipWith _ (c :: rest) rest).get? (j + 1) = _
    rw [List.get?_cons_succ, get?_zipWith_eq]
    simp only [Nat.add_sub_cancel, List.get?_cons_succ]
    rcases (c :: rest).get? j with _ | p <;> rcases rest.get? j with _ | q <;> rfl

theorem shift1_get? (xs : List Int) (i : Nat) (h1 : 1 ≤ i) (h2 : i < xs.length)
    (s : Int) (hs : xs.get? (i - 1) = some s) :
    (shift1 xs).get? i = some (some s) := by
  obtain ⟨j, rfl⟩ : ∃ j, i = j + 1 := ⟨i - 1, by omega⟩
  simp only [Nat.add_sub_cancel] at hs
  simp only [shift1, List.get?_eq_getElem?, List.getElem?_take, if_pos h2,
    List.getElem?_cons_succ, List.getElem?_map]
  rw [List.get?_eq_getElem?] at hs
  rw [hs]
  rfl

theorem strategy_return_get? (close : List ℚ) (signal : List Int) (i : Nat)
    (h1 : 1 ≤ i) (hsig : i < signal.length)
    (s : Int) (hs : signal.get? (i - 1) = some s)
    (p c : ℚ) (hp : close.get? (i - 1) = some p) (hc : close.get? i = some c) :
    (strategy_return close signal).get? i = some (some ((s : ℚ) * ((c - p) / p))) := by
  rw [strategy_return, get?_zipWith_eq, shift1_get? signal i h1 hsig s hs,
    pct_change_get? close i h1, hp, hc]

/-- A leading NaN return is skipped by `cumprod` (pandas `skipna=True`): it
stays NaN in the cumulative curve but leaves every later entry exactly the
compounding of the remaining returns. -/
theorem cumulativeReturns_none_cons (xs : List (Option ℚ)) :
    cumulativeReturns (none :: xs) = none :: cumulativeReturns xs := rfl

/-- C2 counterexample: on close `[100, 110]` with signal `[1, 1]`,
`Strategy_Return[0]` is NaN (undefined), not 0 — `shift(1)` and `pct_change`
both put NaN at index 0 — and both cumulative curves are NaN at index 0
rather than starting at 0. -/
theorem C2_counterexample :
    (strategy_return [100, 110] [1, 1]).get? 0 = some none ∧
    (strategy_return [100, 110] [1, 1]).get? 0 ≠ some (some 0) ∧
    ((backtest_strategy [100, 110] [1, 1]).1).get? 0 = some none ∧
    ((backtest_strategy [100, 110] [1, 1]).2).get? 0 = some none := by
  refine ⟨rfl, ?_, rfl, rfl⟩
  intro h
  exact Option.noConfusion (Option.some.inj h)

/-- C2 amended: `strategyReturn[i] = signal[i-1] * marketReturn[i]` for every
`i ≥ 1`; at index 0 the strategy return and both cumulative curves are
undefined (NaN), not 0; and a leading NaN is skipped by the cumulative
product, so the undefined entry does not propagate into any later entry of
the curves (they effectively start from 0). -/
theorem C2_amended_strategy_return (close : List ℚ) (signal : List Int) :
    (∀ i, 1 ≤ i → i < signal.length →
      ∀ (s : Int) (p c : ℚ), signal.get? (i - 1) = some s →
        close.get? (i - 1) = some p → close.get? i = some c →
        (strategy_return close signal).get? i = some (some ((s : ℚ) * ((c - p) / p)))) ∧
    (0 < close.length → 0 < signal.length →
      (strategy_return close signal).get? 0 = some none ∧
      ((backtest_strategy close signal).1).get? 0 = some none ∧
      ((backtest_strategy close signal).2).get? 0 = some none) ∧
    (∀ xs : List (Option ℚ), cumulativeReturns (none :: xs) = none :: cumulativeReturns xs) := by
  refine ⟨?_, ?_, cumulativeReturns_none_cons⟩
  · intro i h1 hsig s p c hs hp hc
    exact strategy_return_get? close signal i h1 hsig s hs p c hp hc
  · intro hclose hsignal
    cases close with
    | nil => simp at hclose
    | cons c rest =>
      cases signal with
      | nil => simp at hsignal
      | cons s ss => exact ⟨rfl, rfl, rfl⟩

/-- Witness for C2: close `[100, 110, 121]`, signal `[1, 1, 1]` — the realized
return at index 1, the NaN entries at index 0, and the skipped leading NaN. -/
theorem C2_amended_strategy_return_witness :
    (strategy_return [100, 110, 121] [1, 1, 1]).get? 1 =
      some (some (((1 : Int) : ℚ) * ((110 - 100) / 100))) ∧
    ((strategy_return [100, 110, 121] [1, 1, 1]).get? 0 = some none ∧
     ((backtest_strategy [100, 110, 121] [1, 1, 1]).1).get? 0 = some none ∧
     ((backtest_strategy [100, 110, 121] [1, 1, 1]).2).get? 0 = some none) ∧
    cumulativeReturns [none, some 1] = none :: cumulativeReturns [some 1] :=
  ⟨(C2_amended_strategy_return [100, 110, 121] [1, 1, 1]).1 1 (by decide) (by decide)
      1 100 110 rfl rfl rfl,
   (C2_amended_strategy_return [100, 110, 121] [1, 1, 1]).2.1 (by decide) (by decide),
   (C2_amended_strategy_return [100, 110, 121] [1, 1, 1]).2.2 [some 1]⟩

/-- C1 counterexample: on an all-constant price series the rolling mean gain
and loss are both 0 at index 1 (periods = 2), and the code's RSI there is NaN
(undefined), not the claimed defined value 50. -/
theorem C1_counterexample :
    (calculate_rsi 2 [50, 50, 50]).get? 1 = some none ∧
    (calculate_rsi 2 [50, 50, 50]).get? 1 ≠ some (some 50) := by
  have h : (calculate_rsi 2 [50, 50, 50]).get? 1 = some none := by
    norm_num [calculate_rsi, rollingMean, gainList, lossList, rsiAt, List.range_succ]
  refine ⟨h, ?_⟩
  rw [h]
  intro hcontra
  exact Option.noConfusion (Option.some.inj hcontra)

/-- C1 amended: every defined RSI value lies in [0, 100]; but at an index where
the rolling mean gain and the rolling mean loss are both 0 (as on an
all-constant price series) the RSI is undefined (`0/0 = NaN`), not 50. -/
theorem C1_amended_rsi_range (periods : Nat) (close : List ℚ) (i : Nat) :
    (∀ v : ℚ, (calculate_rsi periods close).get? i = some (some v) → 0 ≤ v ∧ v ≤ 100) ∧
    ((rollingMean periods (gainList close)).get? i = some (some 0) ∧
     (rollingMean periods (lossList close)).get? i = some (some 0) →
      (calculate_rsi periods close).get? i = some none) := by
  constructor
  · intro v hv
    rw [calculate_rsi, get?_zipWith_eq] at hv
    rcases hG : (rollingMean periods (gainList close)).get? i with _ | g? <;> rw [hG] at hv
    · exact absurd hv (by simp)
    rcases hL : (rollingMean periods (lossList close)).get? i with _ | l? <;> rw [hL] at hv
    · exact absurd hv (by simp)
    rcases g? with _ | g
    · exact absurd hv (by simp)
    rcases l? with _ | l
    · exact absurd hv (by simp)
    have hveq : rsiAt g l = some v := Option.some.inj hv
    have hg0 : 0 ≤ g := rollingMean_nonneg (gainList_nonneg close) hG
    have hl0 : 0 ≤ l := rollingMean_nonneg (lossList_nonneg close) hL
    unfold rsiAt at hveq
    by_cases hl : l = 0
    · rw [if_pos hl] at hveq
      by_cases hg : g = 0
      · rw [if_pos hg] at hveq
        exact Option.noConfusion hveq
      · rw [if_neg hg] at hveq
        have : (100 : ℚ) = v := Option.some.inj hveq
        constructor <;> rw [← this] <;> norm_num
    · rw [if_neg hl] at hveq
      have hval : 100 - 100 / (1 + g / l) = v := Option.some.inj hveq
      have hlpos : 0 < l := lt_of_le_of_ne hl0 (Ne.symm hl)
      have ht : 0 ≤ g / l := div_nonneg hg0 hl0
      have hb1 : 100 / (1 + g / l) ≤ 100 := div_le_self (by norm_num) (by linarith)
      have hb2 : 0 < 100 / (1 + g / l) := div_pos (by norm_num) (by linarith)
      constructor <;> linarith
  · rintro ⟨hG, hL⟩
    rw [calculate_rsi, get?_zipWith_eq, hG, hL]
    norm_num [rsiAt]

/-- Witness for C1: the bound applied at a defined RSI value (close
`[100, 102, 101]`, periods 2, RSI = 100 at index 1), and the NaN case on the
all-constant series `[50, 50, 50]`. -/
theorem C1_amended_rsi_range_witness :
    ((0 : ℚ) ≤ 100 ∧ (100 : ℚ) ≤ 100) ∧
    (calculate_rsi 2 [50, 50, 50]).get? 1 = some none :=
  ⟨(C1_amended_rsi_range 2 [100, 102, 101] 1).1 100
      (by norm_num [calculate_rsi, rollingMean, gainList, lossList, rsiAt, List.range_succ]),
   (C1_amended_rsi_range 2 [50, 50, 50] 1).2
      ⟨by norm_num [rollingMean, gainList, List.range_succ],
       by norm_num [rollingMean, lossList, List.range_succ]⟩⟩

theorem take_eq_of_le {α : Type} {xs ys : List α} {i : Nat} (h : xs.take i = ys.take i)
    {j : Nat} (hj : j ≤ i) : xs.take j = ys.take j := by
  have h1 : xs.take j = (xs.take i).take j := by rw [List.take_take, Nat.min_eq_left hj]
  have h2 : ys.take j = (ys.take i).take j := by rw [List.take_take, Nat.min_eq_left hj]
  rw [h1, h2, h]

/-- A `rollingMean` entry depends only on the input entries at indices `≤ i`. -/
theorem rollingMean_congr (w : Nat) {xs ys : List ℚ} (i : Nat)
    (h : xs.take (i + 1) = ys.take (i + 1)) (hx : i < xs.length) (hy : i < ys.length) :
    (rollingMean w xs).get? i = (rollingMean w ys).get? i := by
  rw [rollingMean_get? w xs i hx, rollingMean_get? w ys i hy]
  by_cases hw : i + 1 < w
  · rw [if_pos hw, if_pos hw]
  · rw [if_neg hw, if_neg hw]
    have ha : i + 1 - (i + 1 - w) = w := by omega
    have hwin : (xs.drop (i + 1 - w)).take w = (ys.drop (i + 1 - w)).take w := by
      calc (xs.drop (i + 1 - w)).take w
          = (xs.take (i + 1)).drop (i + 1 - w) := by rw [List.drop_take, ha]
        _ = (ys.take (i + 1)).drop (i + 1 - w) := by rw [h]
        _ = (ys.drop (i + 1 - w)).take w := by rw [List.drop_take, ha]
    rw [hwin]

theorem gainList_take {c1 c2 : List ℚ} (i : Nat) (h : c1.take (i + 1) = c2.take (i + 1)) :
    (gainList c1).take (i + 1) = (gainList c2).take (i + 1) := by
  cases c1 with
  | nil =>
    cases c2 with
    | nil => rfl
    | cons y ys => simp [List.take_succ_cons] at h
  | cons x xs =>
    cases c2 with
    | nil => simp [List.take_succ_cons] at h
    | cons y ys =>
      simp only [List.take_succ_cons, List.cons.injEq] at h
      obtain ⟨rfl, htail⟩ := h
      simp only [gainList, List.take_succ_cons, List.take_zipWith]
      have hcons : (x :: xs).take (i + 1) = (x :: ys).take (i + 1) := by
        simp only [List.take_succ_cons, htail]
      rw [take_eq_of_le hcons (Nat.le_succ i), htail]

theorem lossList_take {c1 c2 : List ℚ} (i : Nat) (h : c1.take (i + 1) = c2.take (i + 1)) :
    (lossList c1).take (i + 1) = (lossList c2).take (i + 1) := by
  cases c1 with
  | nil =>
    cases c2 with
    | nil => rfl
    | cons y ys => simp [List.take_succ_cons] at h
  | cons x xs =>
    cases c2 with
    | nil => simp [List.take_succ_cons] at h
    | cons y ys =>
      simp only [List.take_succ_cons, List.cons.injEq] at h
      obtain ⟨rfl, htail⟩ := h
      simp only [lossList, List.take_succ_cons, List.take_zipWith]
      have hcons : (x :: xs).take (i + 1) = (x :: ys).take (i + 1) := by
        simp only [List.take_succ_cons, htail]
      rw [take_eq_of_le hcons (Nat.le_succ i), htail]

/-- An RSI entry depends only on the close entries at indices `≤ i`. -/
theorem calculate_rsi_congr (p : Nat) {c1 c2 : List ℚ} (i : Nat)
    (h : c1.take (i + 1) = c2.take (i + 1)) (h1 : i < c1.length) (h2 : i < c2.length) :
    (calculate_rsi p c1).get? i = (calculate_rsi p c2).get? i := by
  rw [calculate_rsi, calculate_rsi, get?_zipWith_eq, get?_zipWith_eq,
    rollingMean_congr p i (gainList_take i h)
      (by rw [gainList_length]; exact h1) (by rw [gainList_length]; exact h2),
    rollingMean_congr p i (lossList_take i h)
      (by rw [lossList_length]; exact h1) (by rw [lossList_length]; exact h2)]

/-- C8 counterexample: with periods = 2 and the strictly falling close series
`[100, 99, 98]`, RSI is already defined at index 1 < periods (the initial NaN
delta was replaced by 0 before the rolling mean), refuting "the first
`periods` entries are undefined". -/
theorem C8_counterexample :
    (calculate_rsi 2 [100, 99, 98]).get? 1 = some (some 0) ∧ 1 < 2 := by
  constructor
  · norm_num [calculate_rsi, rollingMean, gainList, lossList, rsiAt, List.range_succ]
  · decide

/-- C8 amended: SMA and RSI values at index `i` depend only on close values at
indices `≤ i` (no lookahead), the first `w-1` SMA entries are undefined, and
the first `periods-1` (not `periods`) RSI entries are undefined — the
`where`-replacement of the initial NaN delta by 0 makes RSI defined already at
index `periods-1`. -/
theorem C8_amended_no_lookahead (w p i : Nat) (c1 c2 : List ℚ) :
    (c1.take (i + 1) = c2.take (i + 1) → i < c1.length → i < c2.length →
      (simpleMovingAverage w c1).get? i = (simpleMovingAverage w c2).get? i ∧
      (calculate_rsi p c1).get? i = (calculate_rsi p c2).get? i) ∧
    (i + 1 < w → i < c1.length → (simpleMovingAverage w c1).get? i = some none) ∧
    (i + 1 < p → i < c1.length → (calculate_rsi p c1).get? i = some none) := by
  refine ⟨fun h h1 h2 => ⟨rollingMean_congr w i h h1 h2, calculate_rsi_congr p i h h1 h2⟩,
    ?_, ?_⟩
  · intro hw h1
    rw [simpleMovingAverage, rollingMean_get? w c1 i h1, if_pos hw]
  · intro hp h1
    rw [calculate_rsi, get?_zipWith_eq,
      rollingMean_get? p (gainList c1) i (by rw [gainList_length]; exact h1),
      rollingMean_get? p (lossList c1) i (by rw [lossList_length]; exact h1),
      if_pos hp]

/-- Witness for C8: two series agreeing up to index 1 give equal SMA and RSI
values there, and window 3 leaves index 1 undefined for both indicators. -/
theorem C8_amended_no_lookahead_witness :
    ((simpleMovingAverage 2 [1, 2, 5]).get? 1 = (simpleMovingAverage 2 [1, 2, 9]).get? 1 ∧
     (calculate_rsi 2 [1, 2, 5]).get? 1 = (calculate_rsi 2 [1, 2, 9]).get? 1) ∧
    (simpleMovingAverage 3 [1, 2, 5]).get? 1 = some none ∧
    (calculate_rsi 3 [1, 2, 5]).get? 1 = some none :=
  ⟨(C8_amended_no_lookahead 2 2 1 [1, 2, 5] [1, 2, 9]).1 rfl (by decide) (by decide),
   (C8_amended_no_lookahead 3 3 1 [1, 2, 5] [1, 2, 5]).2.1 (by decide) (by decide),
   (C8_amended_no_lookahead 3 3 1 [1, 2, 5] [1, 2, 5]).2.2 (by decide) (by decide)⟩

end AstroTrader
